import Mathlib

/-!
Verification development for the StakeFlow wager-challenge engine.

The definitions below are a shallow embedding of the challenge / wallet server
in `src/unnamed/part_001` (the variant that owns the balance ledger: auth,
wallet, transactions).  Database rows become Lean structures, the SQLite
tables become lists (in rowid = insertion order), the per-row SQL UPDATE
statements become `List.map` over matching rows, and each HTTP handler becomes
a state-transition function on the authenticated path (the logged-in user's
row always exists; ids are modelled as naturals).  All money amounts are in
integer minor units (cents), exactly as stored by the server.

JavaScript `Math.round(a / b)` on the nonnegative integers produced by the
payout arithmetic is round-half-up, embedded as `jsRoundDiv a b = (2a+b)/(2b)`
over ℕ; JavaScript `Math.floor` of a nonnegative quotient is ℕ division.
-/

inductive CType
  | solo
  | friend
  | royale
  | group
deriving DecidableEq

inductive CStatus
  | pending
  | active
  | completed
deriving DecidableEq

inductive TxType
  | stake
  | win
  | loss
  | deposit
  | withdrawal
deriving DecidableEq

/-- Row of the `users` table (the columns touched by the engine; `balance`,
money totals in cents).  `connectVerified` is `stripe_connect_verified`. -/
structure User where
  balance : ℤ := 0
  totalSessions : ℕ := 0
  totalWins : ℕ := 0
  totalFocusMinutes : ℕ := 0
  moneyWon : ℤ := 0
  moneyLost : ℤ := 0
  currentStreak : ℕ := 0
  bestStreak : ℕ := 0
  connectVerified : Bool := false
deriving DecidableEq

/-- Row of the `challenges` table. -/
structure Challenge where
  id : ℕ
  ctype : CType
  creatorId : ℕ
  stakeAmount : ℕ
  durationMinutes : Option ℕ
  maxPlayers : ℕ
  status : CStatus
  winnerId : Option ℕ
deriving DecidableEq

/-- Row of the `challenge_players` table. -/
structure PlayerRow where
  challengeId : ℕ
  userId : ℕ
  paid : Bool
  ready : Bool
  failed : Bool
  completed : Bool
deriving DecidableEq

instance : Inhabited PlayerRow := ⟨⟨0, 0, false, false, false, false⟩⟩

/-- Row of the `transactions` table (`stripeRef` is `stripe_payment_id`). -/
structure Txn where
  userId : ℕ
  ttype : TxType
  amount : ℤ
  challengeId : Option ℕ := none
  stripeRef : Option ℕ := none
deriving DecidableEq

/-- The persistent store: the four tables the engine touches.  `users` is a
total map (a user row exists for every authenticated caller, with the schema's
zero defaults). -/
structure St where
  users : ℕ → User
  challenges : List Challenge
  players : List PlayerRow
  txns : List Txn

/-- Fresh database: no challenges, players or transactions; every user row at
its schema defaults (balance 0). -/
def initSt : St :=
  { users := fun _ => {}, challenges := [], players := [], txns := [] }

/-! ### Shared SQL-statement helpers -/

/-- Embeds `UPDATE users SET ... WHERE id = uid`. -/
def updUser (uid : ℕ) (f : User → User) (s : St) : St :=
  { s with users := Function.update s.users uid (f (s.users uid)) }

/-- Embeds `INSERT INTO transactions ...` (AUTOINCREMENT: appended at the end). -/
def addTxn (t : Txn) (s : St) : St :=
  { s with txns := s.txns ++ [t] }

/-- Embeds `SELECT * FROM challenge_players WHERE challenge_id = cid` (rowid order). -/
def roster (cid : ℕ) (s : St) : List PlayerRow :=
  s.players.filter (fun p => p.challengeId == cid)

/-- Embeds `SELECT * FROM challenges WHERE id = cid`. -/
def findChallenge (cid : ℕ) (s : St) : Option Challenge :=
  s.challenges.find? (fun c => c.id == cid)

/-- Embeds `UPDATE challenges SET ... WHERE id = cid`. -/
def updChallenge (cid : ℕ) (f : Challenge → Challenge) (s : St) : St :=
  { s with challenges := s.challenges.map (fun c => if c.id = cid then f c else c) }

/-- Embeds `UPDATE challenge_players SET ... WHERE challenge_id = cid AND user_id = uid`
(all matching rows, as in SQL). -/
def updPlayers (cid uid : ℕ) (f : PlayerRow → PlayerRow) (s : St) : St :=
  { s with players := s.players.map (fun p => if p.challengeId = cid ∧ p.userId = uid then f p else p) }

/-! ### Money arithmetic (part_001 lines 24-37) -/

/-- Source: `const dollars = stakeAmountCents / 100; if (dollars >= 100) return 15; return 10;`.
The JavaScript real-number test `stakeAmountCents / 100 >= 100` is expressed
here with ℕ floor division, which agrees with it at the integer threshold 100. -/
def getPlatformFee (stakeAmountCents : ℕ) : ℕ :=
  if 100 ≤ stakeAmountCents / 100 then 15 else 10

/-- Source: streak `>= 7 → 0.10`, `>= 5 → 0.07`, `>= 3 → 0.05`, else `0`.
The bonus fraction is represented exactly in hundredths (`10` stands for
`0.10`, and so on); it is always used as `1 + bonus = (100 + b)/100`. -/
def getStreakBonus (streak : ℕ) : ℕ :=
  if 7 ≤ streak then 10 else if 5 ≤ streak then 7 else if 3 ≤ streak then 5 else 0

/-- JavaScript `Math.round (a / b)` for `a b : ℕ`, `b > 0`: round half up,
`⌊a / b + 1 / 2⌋ = ⌊(2a + b) / 2b⌋`. -/
def jsRoundDiv (a b : ℕ) : ℕ :=
  (2 * a + b) / (2 * b)

/-! ### Settlement (part_001 lines 872-953) -/

/-- Function `endChallengeWithWinner(challengeId, winnerId, challenge, players)`:
single-winner settlement.  Pot is stake times the full roster length, the
tiered fee is removed with one rounding, the winner's pre-increment streak
picks the bonus, a second rounding applies it, and the winner is credited in
one `win` transaction; the challenge row is completed with `winner_id` set. -/
def endChallengeWithWinner (cid winnerId : ℕ) (ch : Challenge) (ps : List PlayerRow) (s : St) : St :=
  let totalPot := ch.stakeAmount * ps.length
  let fee := getPlatformFee ch.stakeAmount
  let winnings := jsRoundDiv (totalPot * (100 - fee)) 100
  let s1 := updChallenge cid (fun c => { c with status := .completed, winnerId := some winnerId }) s
  let streak := (s1.users winnerId).currentStreak
  let bonus := getStreakBonus streak
  let totalWinnings := jsRoundDiv (winnings * (100 + bonus)) 100
  let s2 := updUser winnerId (fun u => { u with balance := u.balance + (totalWinnings : ℤ) }) s1
  let s3 := updUser winnerId (fun u =>
    { u with totalWins := u.totalWins + 1, totalSessions := u.totalSessions + 1,
             moneyWon := u.moneyWon + (totalWinnings : ℤ),
             currentStreak := u.currentStreak + 1,
             bestStreak := max u.bestStreak (u.currentStreak + 1) }) s2
  addTxn { userId := winnerId, ttype := .win, amount := (totalWinnings : ℤ), challengeId := some cid } s3

/-- The survivor-payout loop of `endGroupChallenge`: for each survivor, credit
the refund to the balance and record one `win` transaction. -/
def groupPayout (cid : ℕ) (refund : ℕ) (survivors : List PlayerRow) (s : St) : St :=
  survivors.foldl
    (fun acc p =>
      addTxn { userId := p.userId, ttype := .win, amount := (refund : ℤ), challengeId := some cid }
        (updUser p.userId (fun u => { u with balance := u.balance + (refund : ℤ) }) acc))
    s

/-- Function `endGroupChallenge(challengeId, challenge, players)`: fixed-duration group
settlement.  Survivors (completed and not failed) split the losers' pot after
the fee, each refunded their own stake plus the floor share; if nobody
survived the pot is forfeited and the challenge is just completed. -/
def endGroupChallenge (cid : ℕ) (ch : Challenge) (ps : List PlayerRow) (s : St) : St :=
  let survivors := ps.filter (fun p => p.completed && !p.failed)
  let losers := ps.filter (fun p => p.failed)
  if survivors.length = 0 then
    updChallenge cid (fun c => { c with status := .completed }) s
  else
    let loserPot := losers.length * ch.stakeAmount
    let fee := getPlatformFee ch.stakeAmount
    let distributablePot := jsRoundDiv (loserPot * (100 - fee)) 100
    let perSurvivor := distributablePot / survivors.length
    let refund := ch.stakeAmount + perSurvivor
    updChallenge cid (fun c => { c with status := .completed }) (groupPayout cid refund survivors s)

/-! ### Route handlers (authenticated path) -/

inductive CreateRes
  | ok
  | insufficientBalance
deriving DecidableEq

/-- Route `POST /api/challenges` (part_001 lines 581-630): balance guard for
non-solo modes, insert the challenge (`pending`) and the creator as a paid
player, then escrow the stake for non-solo modes (balance debit plus one
`stake` transaction).  `cid` stands for the generated share code; royale
challenges store no duration. -/
def createChallenge (uid cid : ℕ) (ctype : CType) (stakeCents duration maxPlayers : ℕ) (s : St) :
    CreateRes × St :=
  if ctype ≠ .solo ∧ (s.users uid).balance < (stakeCents : ℤ) then (.insufficientBalance, s)
  else
    let durationMinutes : Option ℕ := if ctype = .royale then none else some duration
    let s1 : St := { s with challenges := s.challenges ++
      [{ id := cid, ctype := ctype, creatorId := uid, stakeAmount := stakeCents,
         durationMinutes := durationMinutes, maxPlayers := maxPlayers,
         status := .pending, winnerId := none }] }
    let s2 : St := { s1 with players := s1.players ++
      [{ challengeId := cid, userId := uid, paid := true, ready := false,
         failed := false, completed := false }] }
    if ctype ≠ .solo then
      let s3 := updUser uid (fun u => { u with balance := u.balance - (stakeCents : ℤ) }) s2
      (.ok, addTxn { userId := uid, ttype := .stake, amount := -(stakeCents : ℤ),
                     challengeId := some cid } s3)
    else (.ok, s2)

inductive JoinRes
  | ok
  | notFound
  | alreadyStarted
  | challengeFull
  | insufficientBalance
deriving DecidableEq

/-- Route `POST /api/challenges/:id/join` (part_001 lines 659-710): 404 when the
challenge is absent, reject when the status is not `pending`, reject when the
roster is already at `max_players`; otherwise check the balance, escrow the
stake (debit plus `stake` transaction) and insert the paid player row. -/
def joinChallenge (cid uid : ℕ) (s : St) : JoinRes × St :=
  match findChallenge cid s with
  | none => (.notFound, s)
  | some ch =>
    if ch.status ≠ .pending then (.alreadyStarted, s)
    else if ch.maxPlayers ≤ (roster cid s).length then (.challengeFull, s)
    else if (s.users uid).balance < (ch.stakeAmount : ℤ) then (.insufficientBalance, s)
    else
      let s1 := updUser uid (fun u => { u with balance := u.balance - (ch.stakeAmount : ℤ) }) s
      let s2 := addTxn { userId := uid, ttype := .stake, amount := -(ch.stakeAmount : ℤ),
                         challengeId := some cid } s1
      (.ok, { s2 with players := s2.players ++
        [{ challengeId := cid, userId := uid, paid := true, ready := false,
           failed := false, completed := false }] })

/-- Route `POST /api/challenges/:id/ready` (part_001 lines 713-748): mark the player
ready; when the roster has at least two members and every member is ready, set
the challenge `active` (the handler never examines the current status). -/
def readyChallenge (cid uid : ℕ) (s : St) : St :=
  let s1 := updPlayers cid uid (fun p => { p with ready := true }) s
  let ps := roster cid s1
  if 2 ≤ ps.length ∧ ps.all (fun p => p.ready) then
    updChallenge cid (fun c => { c with status := .active }) s1
  else s1

inductive FailRes
  | ok
  | notFound
deriving DecidableEq

/-- Route `POST /api/challenges/:id/fail` (part_001 lines 751-807): mark the player
failed, add the stake to `money_lost`, reset the streak, record a `loss`
transaction of minus the stake (the balance is not touched — the stake was
already escrowed at join), then evaluate termination: friend with one
non-failed player left, or royale/group with one left, settles through
`endChallengeWithWinner`.  The handler never examines the challenge status. -/
def failChallenge (cid uid : ℕ) (s : St) : FailRes × St :=
  match findChallenge cid s with
  | none => (.notFound, s)
  | some ch =>
    let s1 := updPlayers cid uid (fun p => { p with failed := true }) s
    let s2 := updUser uid (fun u =>
      { u with moneyLost := u.moneyLost + (ch.stakeAmount : ℤ), currentStreak := 0 }) s1
    let s3 := addTxn { userId := uid, ttype := .loss, amount := -(ch.stakeAmount : ℤ),
                       challengeId := some cid } s2
    let ps := roster cid s3
    let active := ps.filter (fun p => !p.failed)
    if ch.ctype = .friend ∧ active.length = 1 then
      (.ok, endChallengeWithWinner cid (active.headI.userId) ch ps s3)
    else if (ch.ctype = .royale ∨ ch.ctype = .group) ∧ active.length = 1 then
      (.ok, endChallengeWithWinner cid (active.headI.userId) ch ps s3)
    else (.ok, s3)

inductive CompleteRes
  | ok
  | notFound
deriving DecidableEq

/-- Route `POST /api/challenges/:id/complete` (part_001 lines 810-870): mark the
player completed.  Solo: bump stats (wins, sessions, focus minutes, streak)
with no balance change and no transaction, and complete the challenge with the
player as winner.  Group: when every roster member has completed or failed,
settle through `endGroupChallenge`.  Other modes: nothing further. -/
def completeChallenge (cid uid : ℕ) (s : St) : CompleteRes × St :=
  match findChallenge cid s with
  | none => (.notFound, s)
  | some ch =>
    let s1 := updPlayers cid uid (fun p => { p with completed := true }) s
    if ch.ctype = .solo then
      let s2 := updUser uid (fun u =>
        { u with totalWins := u.totalWins + 1, totalSessions := u.totalSessions + 1,
                 totalFocusMinutes := u.totalFocusMinutes + ch.durationMinutes.getD 0,
                 currentStreak := u.currentStreak + 1,
                 bestStreak := max u.bestStreak (u.currentStreak + 1) }) s1
      (.ok, updChallenge cid (fun c => { c with status := .completed, winnerId := some uid }) s2)
    else
      let ps := roster cid s1
      let completedPs := ps.filter (fun p => p.completed)
      let failedPs := ps.filter (fun p => p.failed)
      if ch.ctype = .group ∧ completedPs.length + failedPs.length = ps.length then
        (.ok, endGroupChallenge cid ch ps s1)
      else (.ok, s1)

/-! ### Wallet handlers (part_001 lines 369-542) -/

inductive AddFundsRes
  | ok
  | belowMinimum
  | aboveMaximum
deriving DecidableEq

/-- Validation of `POST /api/wallet/add-funds` (part_001 lines 369-380),
performed before any payment intent is created: `!amount || amount < 5`
rejects, `amount > 500` rejects.  `amountDollars` is the request amount in
dollars (the route converts to cents only after these checks). -/
def addFundsCheck (amountDollars : ℚ) : AddFundsRes :=
  if amountDollars = 0 ∨ amountDollars < 5 then .belowMinimum
  else if 500 < amountDollars then .aboveMaximum
  else .ok

/-- Route `POST /api/wallet/confirm-funds` (part_001 lines 418-460), after Stripe
verification: if any transaction already carries this `stripe_payment_id`,
answer "Already processed" and change nothing; otherwise credit the balance
and record one `deposit` transaction carrying the reference. -/
def confirmFunds (uid amountCents ref : ℕ) (s : St) : St :=
  if s.txns.any (fun t => t.stripeRef == some ref) then s
  else
    addTxn { userId := uid, ttype := .deposit, amount := (amountCents : ℤ), stripeRef := some ref }
      (updUser uid (fun u => { u with balance := u.balance + (amountCents : ℤ) }) s)

inductive WithdrawRes
  | ok
  | belowMinimum
  | insufficientBalance
  | notVerified
deriving DecidableEq

/-- Route `POST /api/wallet/withdraw` (part_001 lines 498-542): reject below 1000
cents, reject when the amount exceeds the balance, reject without a verified
payout account; otherwise debit the balance and record one `withdrawal`
transaction of minus the amount. -/
def withdraw (uid amountCents : ℕ) (s : St) : WithdrawRes × St :=
  if amountCents < 1000 then (.belowMinimum, s)
  else if (s.users uid).balance < (amountCents : ℤ) then (.insufficientBalance, s)
  else if ¬ (s.users uid).connectVerified then (.notVerified, s)
  else
    (.ok, addTxn { userId := uid, ttype := .withdrawal, amount := -(amountCents : ℤ) }
      (updUser uid (fun u => { u with balance := u.balance - (amountCents : ℤ) }) s))

/-! ### Traces of engine operations -/

/-- One external event: a wallet confirmation or withdrawal, the
`account.updated` webhook marking the payout account verified, or a challenge
route invocation. -/
inductive Op
  | confirmFundsOp (uid amountCents ref : ℕ)
  | withdrawOp (uid amountCents : ℕ)
  | verifyConnectOp (uid : ℕ)
  | createOp (uid cid : ℕ) (ctype : CType) (stakeCents duration maxPlayers : ℕ)
  | joinOp (cid uid : ℕ)
  | readyOp (cid uid : ℕ)
  | failOp (cid uid : ℕ)
  | completeOp (cid uid : ℕ)
deriving DecidableEq

/-- Apply one operation (the state left behind by the handler, whatever its
HTTP response). -/
def step (s : St) : Op → St
  | .confirmFundsOp u a r => confirmFunds u a r s
  | .withdrawOp u a => (withdraw u a s).2
  | .verifyConnectOp u => updUser u (fun x => { x with connectVerified := true }) s
  | .createOp u c t st d m => (createChallenge u c t st d m s).2
  | .joinOp c u => (joinChallenge c u s).2
  | .readyOp c u => readyChallenge c u s
  | .failOp c u => (failChallenge c u s).2
  | .completeOp c u => (completeChallenge c u s).2

/-- Run a sequence of operations from the fresh database. -/
def runOps (ops : List Op) : St :=
  ops.foldl step initSt

/-! ### Transaction-log sums -/

/-- Signed sum of all of a user's transactions. -/
def txnSum (uid : ℕ) (ts : List Txn) : ℤ :=
  ts.foldl (fun a t => if t.userId = uid then a + t.amount else a) 0

/-- Signed sum of a user's transactions other than `loss` records. -/
def txnSumNonLoss (uid : ℕ) (ts : List Txn) : ℤ :=
  ts.foldl (fun a t => if t.userId = uid ∧ t.ttype ≠ .loss then a + t.amount else a) 0

/-- Number of `win` transactions recorded against one challenge. -/
def winTxnCount (cid : ℕ) (ts : List Txn) : ℕ :=
  ts.countP (fun t => decide (t.ttype = .win ∧ t.challengeId = some cid))

/-! ### Evaluation lemmas for the store helpers -/

@[simp] lemma updUser_users (uid : ℕ) (f : User → User) (s : St) (v : ℕ) :
    (updUser uid f s).users v = if v = uid then f (s.users uid) else s.users v := by
  simp [updUser, Function.update_apply]

@[simp] lemma updUser_txns (uid : ℕ) (f : User → User) (s : St) :
    (updUser uid f s).txns = s.txns := rfl

@[simp] lemma addTxn_users (t : Txn) (s : St) : (addTxn t s).users = s.users := rfl

@[simp] lemma addTxn_txns (t : Txn) (s : St) : (addTxn t s).txns = s.txns ++ [t] := rfl

@[simp] lemma updChallenge_users (cid : ℕ) (f : Challenge → Challenge) (s : St) :
    (updChallenge cid f s).users = s.users := rfl

@[simp] lemma updChallenge_txns (cid : ℕ) (f : Challenge → Challenge) (s : St) :
    (updChallenge cid f s).txns = s.txns := rfl

@[simp] lemma updPlayers_users (cid uid : ℕ) (f : PlayerRow → PlayerRow) (s : St) :
    (updPlayers cid uid f s).users = s.users := rfl

@[simp] lemma updPlayers_txns (cid uid : ℕ) (f : PlayerRow → PlayerRow) (s : St) :
    (updPlayers cid uid f s).txns = s.txns := rfl

lemma txnSumNonLoss_append (uid : ℕ) (ts : List Txn) (t : Txn) :
    txnSumNonLoss uid (ts ++ [t]) =
      txnSumNonLoss uid ts + (if t.userId = uid ∧ t.ttype ≠ .loss then t.amount else 0) := by
  unfold txnSumNonLoss
  rw [List.foldl_append]
  simp only [List.foldl_cons, List.foldl_nil]
  split <;> simp

/-! ### The ledger-reconciliation invariant -/

/-- Every user's balance equals the signed sum of their non-`loss`
transactions. -/
def LedgerInv (s : St) : Prop :=
  ∀ uid, (s.users uid).balance = txnSumNonLoss uid s.txns

lemma inv_of_same {s s2 : St} (h : LedgerInv s)
    (hu : ∀ v, (s2.users v).balance = (s.users v).balance) (ht : s2.txns = s.txns) :
    LedgerInv s2 := by
  intro v
  rw [hu v, ht]
  exact h v

lemma inv_delta {s s2 : St} (h : LedgerInv s) (uid : ℕ) (t : Txn)
    (ht : s2.txns = s.txns ++ [t]) (hty : t.ttype ≠ .loss) (hid : t.userId = uid)
    (hbal : ∀ v, (s2.users v).balance = (s.users v).balance + if v = uid then t.amount else 0) :
    LedgerInv s2 := by
  intro v
  rw [hbal v, ht, txnSumNonLoss_append, h v]
  by_cases hv : v = uid
  · subst hv
    simp [hid, hty]
  · have hne : ¬(t.userId = v) := by
      rw [hid]
      exact fun hc => hv hc.symm
    simp [hv, hne]

lemma inv_loss {s s2 : St} (h : LedgerInv s) (t : Txn) (ht : s2.txns = s.txns ++ [t])
    (hty : t.ttype = .loss)
    (hbal : ∀ v, (s2.users v).balance = (s.users v).balance) : LedgerInv s2 := by
  intro v
  rw [hbal v, ht, txnSumNonLoss_append, h v, hty]
  simp

lemma inv_endChallengeWithWinner {s : St} (cid w : ℕ) (ch : Challenge) (ps : List PlayerRow)
    (h : LedgerInv s) : LedgerInv (endChallengeWithWinner cid w ch ps s) := by
  unfold endChallengeWithWinner
  dsimp only
  refine inv_delta h w _ rfl (by simp) rfl (fun v => ?_)
  by_cases hv : v = w <;> simp [hv]

lemma inv_groupPayout (cid refund : ℕ) :
    ∀ (l : List PlayerRow) (s : St), LedgerInv s → LedgerInv (groupPayout cid refund l s) := by
  intro l
  induction l with
  | nil => intro s h; exact h
  | cons p rest ih =>
    intro s h
    have hblock : LedgerInv (addTxn
        { userId := p.userId, ttype := .win, amount := (refund : ℤ), challengeId := some cid }
        (updUser p.userId (fun u => { u with balance := u.balance + (refund : ℤ) }) s)) := by
      refine inv_delta h p.userId _ rfl (by simp) rfl (fun v => ?_)
      by_cases hv : v = p.userId <;> simp [hv]
    exact ih _ hblock

lemma inv_endGroupChallenge {s : St} (cid : ℕ) (ch : Challenge) (ps : List PlayerRow)
    (h : LedgerInv s) : LedgerInv (endGroupChallenge cid ch ps s) := by
  unfold endGroupChallenge
  dsimp only
  split
  · exact inv_of_same h (fun _ => rfl) rfl
  · exact inv_of_same (inv_groupPayout _ _ _ _ h) (fun _ => rfl) rfl

lemma inv_confirmFunds (uid amt ref : ℕ) {s : St} (h : LedgerInv s) :
    LedgerInv (confirmFunds uid amt ref s) := by
  unfold confirmFunds
  split
  · exact h
  · refine inv_delta h uid _ rfl (by simp) rfl (fun v => ?_)
    by_cases hv : v = uid <;> simp [hv]

lemma inv_withdraw (uid amt : ℕ) {s : St} (h : LedgerInv s) : LedgerInv (withdraw uid amt s).2 := by
  unfold withdraw
  split
  · exact h
  · split
    · exact h
    · split
      · exact h
      · refine inv_delta h uid _ rfl (by simp) rfl (fun v => ?_)
        by_cases hv : v = uid <;> simp [hv, sub_eq_add_neg]

lemma inv_createChallenge (uid cid : ℕ) (ct : CType) (stake dur mx : ℕ) {s : St}
    (h : LedgerInv s) : LedgerInv (createChallenge uid cid ct stake dur mx s).2 := by
  unfold createChallenge
  split
  · exact h
  · by_cases hs : ct = CType.solo
    · dsimp only
      rw [if_neg (by simp [hs])]
      exact inv_of_same h (fun _ => rfl) rfl
    · dsimp only
      rw [if_pos hs]
      refine inv_delta h uid _ rfl (by simp) rfl (fun v => ?_)
      by_cases hv : v = uid <;> simp [hv, sub_eq_add_neg]

lemma inv_joinChallenge (cid uid : ℕ) {s : St} (h : LedgerInv s) :
    LedgerInv (joinChallenge cid uid s).2 := by
  unfold joinChallenge
  split
  · exact h
  · split
    · exact h
    · split
      · exact h
      · split
        · exact h
        · refine inv_delta h uid _ rfl (by simp) rfl (fun v => ?_)
          by_cases hv : v = uid <;> simp [hv, sub_eq_add_neg]

lemma inv_readyChallenge (cid uid : ℕ) {s : St} (h : LedgerInv s) :
    LedgerInv (readyChallenge cid uid s) := by
  unfold readyChallenge
  dsimp only
  split
  · exact inv_of_same h (fun _ => rfl) rfl
  · exact inv_of_same h (fun _ => rfl) rfl

lemma inv_failChallenge (cid uid : ℕ) {s : St} (h : LedgerInv s) :
    LedgerInv (failChallenge cid uid s).2 := by
  unfold failChallenge
  split
  · exact h
  next ch heq =>
    have h3 : LedgerInv (addTxn
        { userId := uid, ttype := .loss, amount := -(ch.stakeAmount : ℤ), challengeId := some cid }
        (updUser uid (fun u =>
          { u with moneyLost := u.moneyLost + (ch.stakeAmount : ℤ), currentStreak := 0 })
          (updPlayers cid uid (fun p => { p with failed := true }) s))) := by
      refine inv_loss (inv_of_same h (fun _ => rfl) rfl) _ rfl rfl (fun v => ?_)
      by_cases hv : v = uid <;> simp [hv]
    dsimp only
    split
    · exact inv_endChallengeWithWinner _ _ _ _ h3
    · split
      · exact inv_endChallengeWithWinner _ _ _ _ h3
      · exact h3

lemma inv_completeChallenge (cid uid : ℕ) {s : St} (h : LedgerInv s) :
    LedgerInv (completeChallenge cid uid s).2 := by
  unfold completeChallenge
  split
  · exact h
  next ch heq =>
    have h1 : LedgerInv (updPlayers cid uid (fun p => { p with completed := true }) s) :=
      inv_of_same h (fun _ => rfl) rfl
    dsimp only
    split
    · refine inv_of_same h1 (fun v => ?_) rfl
      by_cases hv : v = uid <;> simp [hv]
    · split
      · exact inv_endGroupChallenge _ _ _ h1
      · exact h1

lemma inv_step {s : St} (op : Op) (h : LedgerInv s) : LedgerInv (step s op) := by
  cases op with
  | confirmFundsOp u a r => exact inv_confirmFunds u a r h
  | withdrawOp u a => exact inv_withdraw u a h
  | verifyConnectOp u =>
    refine inv_of_same h (fun v => ?_) rfl
    by_cases hv : v = u <;> simp [step, hv]
  | createOp u c t st d m => exact inv_createChallenge u c t st d m h
  | joinOp c u => exact inv_joinChallenge c u h
  | readyOp c u => exact inv_readyChallenge c u h
  | failOp c u => exact inv_failChallenge c u h
  | completeOp c u => exact inv_completeChallenge c u h

lemma inv_initSt : LedgerInv initSt := by
  intro uid
  rfl

lemma inv_runOps (ops : List Op) : LedgerInv (runOps ops) := by
  unfold runOps
  have hfold : ∀ (l : List Op) (s : St), LedgerInv s → LedgerInv (l.foldl step s) := by
    intro l
    induction l with
    | nil => intro s h; exact h
    | cons op rest ih => intro s h; exact ih _ (inv_step op h)
  exact hfold ops initSt inv_initSt

/-! ### Concrete traces

Each trace funds the players through deposit confirmation, opens and fills a
challenge, makes it active, and then drives the scenario the claim is about. -/

/-- Two users deposit, open a funded two-player friend challenge, ready up and
player 1 fails (so the challenge settles for player 2). -/
def c1Trace : List Op :=
  [.confirmFundsOp 1 2000 100, .confirmFundsOp 2 2000 101,
   .createOp 1 10 .friend 1000 25 2, .joinOp 10 2,
   .readyOp 10 1, .readyOp 10 2, .failOp 10 1]

/-- Same scenario: friend challenge settled by player 1 failing once... -/
def c2TracePre : List Op :=
  [.confirmFundsOp 1 2000 100, .confirmFundsOp 2 2000 101,
   .createOp 1 10 .friend 1000 25 2, .joinOp 10 2,
   .readyOp 10 1, .readyOp 10 2, .failOp 10 1]

/-- Trace `c2TracePre` followed by a second `fail` report for the already-completed challenge. -/
def c2Trace : List Op :=
  c2TracePre ++ [.failOp 10 1]

/-- Friend challenge settled by a fail... -/
def c3TracePre : List Op :=
  [.confirmFundsOp 1 2000 100, .confirmFundsOp 2 2000 101,
   .createOp 1 10 .friend 1000 25 2, .joinOp 10 2,
   .readyOp 10 1, .readyOp 10 2, .failOp 10 1]

/-- Trace `c3TracePre` followed by one more `ready` call on the completed challenge. -/
def c3Trace : List Op :=
  c3TracePre ++ [.readyOp 10 1]

/-- A funded user creates a three-seat group challenge and a second funded
user joins it twice while it is still pending and not full. -/
def c9Trace : List Op :=
  [.confirmFundsOp 1 5000 100, .createOp 1 10 .group 1000 30 3,
   .confirmFundsOp 2 5000 101, .joinOp 10 2, .joinOp 10 2]

/-- C1 (amended): after any sequence of engine operations, every user's
balance equals the signed sum of that user's transactions other than `loss`
records — the `loss` transaction written by the fail handler re-records the
stake that the join escrow already debited, with no balance change, so sums
that include `loss` rows diverge from the balance (see
`claim_C1_counterexample`). -/
theorem claim_C1 (ops : List Op) (uid : ℕ) :
    ((runOps ops).users uid).balance = txnSumNonLoss uid (runOps ops).txns :=
  inv_runOps ops uid

/-- C1 counterexample: in a funded friend challenge where player 1 deposits
2000, stakes 1000 and then fails, player 1's balance is 1000 but the signed
sum of player 1's transaction log is 2000 − 1000 − 1000 = 0: the claimed
ledger-balance reconciliation invariant fails after the very first `fail`. -/
theorem claim_C1_counterexample :
    ¬ (((runOps c1Trace).users 1).balance = txnSum 1 (runOps c1Trace).txns) := by
  decide

/-- C2: settlement is not idempotent.  After `c2TracePre` the challenge is
already `completed` (winner paid 1800 once, balance 2800), yet re-reporting
the same failure runs `endChallengeWithWinner` again: the winner's balance
grows to 4600 and a second `win` transaction is recorded for the same
challenge — a double payout instead of the claimed no-op. -/
theorem claim_C2 :
    (findChallenge 10 (runOps c2TracePre)).map (fun c => c.status) = some .completed
    ∧ ((runOps c2TracePre).users 2).balance = 2800
    ∧ winTxnCount 10 (runOps c2TracePre).txns = 1
    ∧ ((runOps c2Trace).users 2).balance = 4600
    ∧ winTxnCount 10 (runOps c2Trace).txns = 2
    ∧ c2Trace = c2TracePre ++ [.failOp 10 1] := by
  decide

/-- C3: the status machine runs backwards.  After `c3TracePre` the challenge
is `completed` (with `winnerId` set by the fail handler), but one more `ready`
call — whose handler never checks the current status — finds the full roster
ready and rewrites the status to `active`: a completed→active transition,
contradicting the claimed forward-only invariant. -/
theorem claim_C3 :
    (findChallenge 10 (runOps c3TracePre)).map (fun c => c.status) = some .completed
    ∧ (findChallenge 10 (runOps c3TracePre)).map (fun c => c.winnerId) = some (some 2)
    ∧ (findChallenge 10 (runOps c3Trace)).map (fun c => c.status) = some .active
    ∧ c3Trace = c3TracePre ++ [.readyOp 10 1] := by
  decide

/-- C9: a duplicate join is not a no-op.  User 2 has already joined the
pending, not-full group challenge; the join handler performs no
already-joined check, so the second join inserts a second `Player` row for
the same (challenge, user) pair and debits the stake a second time (two
`stake` transactions, balance 5000 − 1000 − 1000 = 3000). -/
theorem claim_C9 :
    ((runOps c9Trace).players.countP
        (fun p => decide (p.challengeId = 10 ∧ p.userId = 2))) = 2
    ∧ ((runOps c9Trace).users 2).balance = 3000
    ∧ ((runOps c9Trace).txns.countP
        (fun t => decide (t.userId = 2 ∧ t.ttype = .stake))) = 2 := by
  decide

/-! ### The settlement formulas as the specification words them

These definitions are written from the spec text (not from the source) so the
source-derived settlement functions can be proved to refine them. -/

/-- Spec: platform fee percentage is 15 when the per-player stake is at least
$100 in minor units (10000 cents), else 10. -/
def specFee (stakeAmount : ℕ) : ℕ :=
  if 10000 ≤ stakeAmount then 15 else 10

/-- Spec: streak bonus percentage tiers — 10% at streak ≥ 7, 7% at ≥ 5,
5% at ≥ 3, 0% otherwise (in hundredths, as in `getStreakBonus`). -/
def specStreakBonus (streak : ℕ) : ℕ :=
  if 7 ≤ streak then 10 else if 5 ≤ streak then 7 else if 3 ≤ streak then 5 else 0

/-- Spec: single-winner payout
`totalWinnings = round(round(totalPot × (100 − feePct) / 100) × (1 + bonusPct))`
with `totalPot = stakeAmount × rosterSize` and `bonusPct` from the winner's
pre-settlement streak. -/
def specTotalWinnings (stakeAmount rosterSize streak : ℕ) : ℕ :=
  jsRoundDiv
    (jsRoundDiv (stakeAmount * rosterSize * (100 - specFee stakeAmount)) 100
      * (100 + specStreakBonus streak)) 100

/-- Spec: group payout per survivor
`floor(round(stakeAmount × failedCount × (100 − feePct) / 100) / survivorCount)`. -/
def specPerSurvivor (stakeAmount failedCount survivorCount : ℕ) : ℕ :=
  jsRoundDiv (stakeAmount * failedCount * (100 - specFee stakeAmount)) 100 / survivorCount

lemma getPlatformFee_eq_specFee (c : ℕ) : getPlatformFee c = specFee c := by
  unfold getPlatformFee specFee
  have hiff : 100 ≤ c / 100 ↔ 10000 ≤ c := by
    rw [Nat.le_div_iff_mul_le (by norm_num : 0 < 100)]
  by_cases hc : 10000 ≤ c
  · rw [if_pos (hiff.mpr hc), if_pos hc]
  · rw [if_neg (fun hcon => hc (hiff.mp hcon)), if_neg hc]

lemma getStreakBonus_eq_specStreakBonus : getStreakBonus = specStreakBonus := rfl

/-- C4: every single-winner settlement credits the winner, in exactly one
`win` transaction, with
`round(round(stakeAmount × rosterSize × (100 − feePct) / 100) × (1 + bonusPct))`
where the fee tier comes from the stake and the bonus tier from the winner's
pre-settlement current streak. -/
theorem claim_C4 (s : St) (cid winnerId : ℕ) (ch : Challenge) (ps : List PlayerRow) :
    ((endChallengeWithWinner cid winnerId ch ps s).users winnerId).balance
        = (s.users winnerId).balance
          + (specTotalWinnings ch.stakeAmount ps.length ((s.users winnerId).currentStreak) : ℤ)
    ∧ (endChallengeWithWinner cid winnerId ch ps s).txns
        = s.txns ++ [{ userId := winnerId, ttype := .win,
                       amount := (specTotalWinnings ch.stakeAmount ps.length
                         ((s.users winnerId).currentStreak) : ℤ),
                       challengeId := some cid }] := by
  unfold endChallengeWithWinner specTotalWinnings
  rw [getStreakBonus_eq_specStreakBonus.symm, ← getPlatformFee_eq_specFee]
  constructor
  · simp
  · simp

/-- C6: the platform fee is 15 exactly when the per-player stake is at least
10000 cents and 10 otherwise; in particular a $99 stake is charged 10% and a
$100 stake 15%. -/
theorem claim_C6 (stakeAmountCents : ℕ) :
    getPlatformFee stakeAmountCents = (if 10000 ≤ stakeAmountCents then 15 else 10)
    ∧ getPlatformFee 9900 = 10
    ∧ getPlatformFee 10000 = 15 :=
  ⟨getPlatformFee_eq_specFee stakeAmountCents, by decide, by decide⟩

/-! ### Group-settlement lemmas -/

lemma groupPayout_step (cid refund : ℕ) (p : PlayerRow) (rest : List PlayerRow) (s : St) :
    groupPayout cid refund (p :: rest) s =
      groupPayout cid refund rest
        (addTxn { userId := p.userId, ttype := .win, amount := (refund : ℤ),
                  challengeId := some cid }
          (updUser p.userId (fun u => { u with balance := u.balance + (refund : ℤ) }) s)) := rfl

lemma groupPayout_txns (cid refund : ℕ) :
    ∀ (l : List PlayerRow) (s : St),
      (groupPayout cid refund l s).txns =
        s.txns ++ l.map (fun p =>
          { userId := p.userId, ttype := .win, amount := (refund : ℤ),
            challengeId := some cid }) := by
  intro l
  induction l with
  | nil => intro s; simp [groupPayout]
  | cons p rest ih =>
    intro s
    rw [groupPayout_step, ih]
    simp

lemma groupPayout_users_of_absent (cid refund : ℕ) :
    ∀ (l : List PlayerRow) (s : St) (v : ℕ), (∀ p ∈ l, p.userId ≠ v) →
      (groupPayout cid refund l s).users v = s.users v := by
  intro l
  induction l with
  | nil => intro s v _; rfl
  | cons p rest ih =>
    intro s v hv
    rw [groupPayout_step, ih _ v (fun q hq => hv q (List.mem_cons_of_mem p hq))]
    have hp : p.userId ≠ v := hv p (List.mem_cons_self p rest)
    have hne : ¬ (v = p.userId) := fun hc => hp hc.symm
    simp [hne]

lemma groupPayout_balance_of_mem (cid refund : ℕ) :
    ∀ (l : List PlayerRow) (s : St) (p : PlayerRow),
      (l.map (fun q => q.userId)).Nodup → p ∈ l →
      ((groupPayout cid refund l s).users p.userId).balance =
        (s.users p.userId).balance + (refund : ℤ) := by
  intro l
  induction l with
  | nil => intro s p _ hmem; exact absurd hmem (List.not_mem_nil p)
  | cons q rest ih =>
    intro s p hnd hmem
    rw [List.map_cons, List.nodup_cons] at hnd
    rcases List.mem_cons.mp hmem with hpq | hrest
    · have heq : p.userId = q.userId := by rw [hpq]
      have habs : ∀ r ∈ rest, r.userId ≠ p.userId := by
        intro r hr hc
        exact hnd.1 ((heq ▸ hc) ▸ List.mem_map_of_mem (fun x => x.userId) hr)
      rw [groupPayout_step, groupPayout_users_of_absent _ _ _ _ _ habs]
      simp [heq]
    · have hne : ¬ (p.userId = q.userId) := by
        intro hc
        exact hnd.1 (hc ▸ List.mem_map_of_mem (fun x => x.userId) hrest)
      rw [groupPayout_step, ih _ p hnd.2 hrest]
      simp [hne]

/-- C5: in a fixed-duration group settlement with at least one survivor and at
least one failed player (and pairwise-distinct survivor user ids), every
survivor's balance grows by exactly their own stake plus
`floor(round(stakeAmount × failedCount × (100 − feePct) / 100) / survivorCount)`,
and exactly one `win` transaction per survivor is appended, carrying that same
amount. -/
theorem claim_C5 (s : St) (cid : ℕ) (ch : Challenge) (ps : List PlayerRow)
    (hsurv : ps.filter (fun p => p.completed && !p.failed) ≠ [])
    (_hfail : ps.filter (fun p => p.failed) ≠ [])
    (hnd : ((ps.filter (fun p => p.completed && !p.failed)).map (fun p => p.userId)).Nodup) :
    (∀ p ∈ ps.filter (fun p => p.completed && !p.failed),
        ((endGroupChallenge cid ch ps s).users p.userId).balance
          = (s.users p.userId).balance
            + ((ch.stakeAmount
                + specPerSurvivor ch.stakeAmount (ps.filter (fun p => p.failed)).length
                    (ps.filter (fun p => p.completed && !p.failed)).length : ℕ) : ℤ))
    ∧ (endGroupChallenge cid ch ps s).txns
        = s.txns ++ (ps.filter (fun p => p.completed && !p.failed)).map
            (fun p => { userId := p.userId, ttype := .win,
                        amount := ((ch.stakeAmount
                          + specPerSurvivor ch.stakeAmount
                              (ps.filter (fun p => p.failed)).length
                              (ps.filter (fun p => p.completed && !p.failed)).length : ℕ) : ℤ),
                        challengeId := some cid }) := by
  have hlen : ¬ (ps.filter (fun p => p.completed && !p.failed)).length = 0 := by
    simpa [List.length_eq_zero] using hsurv
  have hform : (jsRoundDiv ((ps.filter (fun p => p.failed)).length * ch.stakeAmount
        * (100 - getPlatformFee ch.stakeAmount)) 100)
        / (ps.filter (fun p => p.completed && !p.failed)).length
      = specPerSurvivor ch.stakeAmount (ps.filter (fun p => p.failed)).length
          (ps.filter (fun p => p.completed && !p.failed)).length := by
    unfold specPerSurvivor
    rw [getPlatformFee_eq_specFee, Nat.mul_comm (ps.filter (fun p => p.failed)).length
      ch.stakeAmount]
  unfold endGroupChallenge
  dsimp only
  rw [if_neg hlen]
  constructor
  · intro p hp
    simp only [updChallenge_users, ← hform]
    exact groupPayout_balance_of_mem _ _ _ _ p hnd hp
  · simp only [updChallenge_txns, ← hform]
    exact groupPayout_txns _ _ _ _

/-- Roster of the C5 witness scenario: users 1, 2, 3 completed; users 4, 5
failed; stake $15 in a five-seat group challenge. -/
def c5Players : List PlayerRow :=
  [⟨20, 1, true, true, false, true⟩, ⟨20, 2, true, true, false, true⟩,
   ⟨20, 3, true, true, false, true⟩, ⟨20, 4, true, true, true, false⟩,
   ⟨20, 5, true, true, true, false⟩]

def c5Challenge : Challenge :=
  ⟨20, .group, 1, 1500, some 30, 5, .active, none⟩

/-- C5 witness: three survivors and two failed players at a 1500-cent stake —
survivor 1's balance grows by 1500 + 900 = 2400 cents, matching the spec's
worked example. -/
theorem claim_C5_witness :
    ((endGroupChallenge 20 c5Challenge c5Players initSt).users 1).balance
      = (initSt.users 1).balance
        + ((c5Challenge.stakeAmount
            + specPerSurvivor c5Challenge.stakeAmount
                (c5Players.filter (fun p => p.failed)).length
                (c5Players.filter (fun p => p.completed && !p.failed)).length : ℕ) : ℤ)
    ∧ c5Challenge.stakeAmount
        + specPerSurvivor c5Challenge.stakeAmount
            (c5Players.filter (fun p => p.failed)).length
            (c5Players.filter (fun p => p.completed && !p.failed)).length = 2400 := by
  refine ⟨?_, by decide⟩
  have h := claim_C5 initSt 20 c5Challenge c5Players (by decide) (by decide) (by decide)
  exact h.1 ⟨20, 1, true, true, false, true⟩ (by decide)

/-! ### Deposit idempotence, join rejection, wallet bounds -/

lemma confirmFunds_of_ref_present (uid amt ref : ℕ) (s : St)
    (hp : (s.txns.any fun t => t.stripeRef == some ref) = true) :
    confirmFunds uid amt ref s = s := by
  unfold confirmFunds
  rw [if_pos hp]

/-- C7: deposit confirmation is idempotent in the external payment reference.
When no transaction carries the reference yet, confirming credits the balance
once and appends exactly one `deposit` transaction; iterating the same
confirmation any further number of times leaves the state exactly where the
first confirmation put it. -/
theorem claim_C7 (s : St) (uid amt ref : ℕ)
    (h : ∀ t ∈ s.txns, t.stripeRef ≠ some ref) :
    ((confirmFunds uid amt ref s).users uid).balance = (s.users uid).balance + amt
    ∧ (confirmFunds uid amt ref s).txns
        = s.txns ++ [{ userId := uid, ttype := .deposit, amount := (amt : ℤ),
                       stripeRef := some ref }]
    ∧ ∀ n, Nat.iterate (confirmFunds uid amt ref) (n + 1) s = confirmFunds uid amt ref s := by
  have hany : ¬ ((s.txns.any fun t => t.stripeRef == some ref) = true) := by
    rw [List.any_eq_true]
    rintro ⟨t, ht, he⟩
    exact h t ht (by simpa using he)
  have h1 : confirmFunds uid amt ref s
      = addTxn { userId := uid, ttype := .deposit, amount := (amt : ℤ), stripeRef := some ref }
          (updUser uid (fun u => { u with balance := u.balance + (amt : ℤ) }) s) := by
    unfold confirmFunds
    rw [if_neg hany]
  have hfix : confirmFunds uid amt ref (confirmFunds uid amt ref s) = confirmFunds uid amt ref s := by
    apply confirmFunds_of_ref_present
    rw [h1, List.any_eq_true]
    refine ⟨{ userId := uid, ttype := .deposit, amount := (amt : ℤ), stripeRef := some ref },
      ?_, ?_⟩
    · simp
    · simp
  refine ⟨by rw [h1]; simp, by rw [h1]; simp, ?_⟩
  intro n
  induction n with
  | zero => rfl
  | succ m ih =>
    rw [Function.iterate_succ_apply', ih, hfix]

/-- C7 witness: confirming payment reference 100 of 500 cents on the fresh
store credits 500 once, and the second confirmation is a no-op. -/
theorem claim_C7_witness :
    ((confirmFunds 1 500 100 initSt).users 1).balance = (initSt.users 1).balance + 500
    ∧ confirmFunds 1 500 100 (confirmFunds 1 500 100 initSt) = confirmFunds 1 500 100 initSt := by
  have h := claim_C7 initSt 1 500 100 (by intro t ht; simp [initSt] at ht)
  exact ⟨h.1, h.2.2 1⟩

/-- C8: joining an existing challenge is rejected, leaving the store
untouched (no player row, no balance change, no transaction), whenever the
challenge is not `pending` or its roster is already at `max_players`. -/
theorem claim_C8 (s : St) (cid uid : ℕ) (ch : Challenge)
    (hch : findChallenge cid s = some ch)
    (hbad : ch.status ≠ .pending ∨ ch.maxPlayers ≤ (roster cid s).length) :
    (joinChallenge cid uid s).2 = s
    ∧ ((joinChallenge cid uid s).1 = .alreadyStarted
        ∨ (joinChallenge cid uid s).1 = .challengeFull) := by
  unfold joinChallenge
  rw [hch]
  dsimp only
  by_cases hst : ch.status = .pending
  · have hfull : ch.maxPlayers ≤ (roster cid s).length := by
      rcases hbad with hb | hb
      · exact absurd hst hb
      · exact hb
    rw [if_neg (by simp [hst]), if_pos hfull]
    exact ⟨rfl, Or.inr rfl⟩
  · rw [if_pos hst]
    exact ⟨rfl, Or.inl rfl⟩

/-- Store for the C8 witness: a pending two-seat friend challenge whose roster
is already full (creator 1 plus joined player 2). -/
def c8St : St :=
  runOps [.confirmFundsOp 1 2000 100, .confirmFundsOp 2 2000 101,
          .createOp 1 10 .friend 1000 25 2, .joinOp 10 2]

def c8Challenge : Challenge :=
  ⟨10, .friend, 1, 1000, some 25, 2, .pending, none⟩

/-- C8 witness: user 3 trying to join the full pending challenge is turned
away with the store unchanged. -/
theorem claim_C8_witness :
    (joinChallenge 10 3 c8St).2 = c8St
    ∧ ((joinChallenge 10 3 c8St).1 = .alreadyStarted
        ∨ (joinChallenge 10 3 c8St).1 = .challengeFull) :=
  claim_C8 c8St 10 3 c8Challenge (by decide) (Or.inr (by decide))

/-- C10: wallet bounds.  `add-funds` rejects requests below $5 (including the
falsy zero) and above $500 before any payment intent is created; `withdraw`
rejects amounts below 1000 cents and amounts exceeding the balance with the
store unchanged, and any successful withdrawal debits exactly the requested
amount and leaves the balance nonnegative. -/
theorem claim_C10 (amountDollars : ℚ) (s : St) (uid amountCents : ℕ) :
    (amountDollars < 5 → addFundsCheck amountDollars = .belowMinimum)
    ∧ (500 < amountDollars → addFundsCheck amountDollars = .aboveMaximum)
    ∧ (amountCents < 1000 → withdraw uid amountCents s = (.belowMinimum, s))
    ∧ ((s.users uid).balance < (amountCents : ℤ) →
        (withdraw uid amountCents s).2 = s ∧ (withdraw uid amountCents s).1 ≠ .ok)
    ∧ ((withdraw uid amountCents s).1 = .ok →
        ((withdraw uid amountCents s).2.users uid).balance
            = (s.users uid).balance - amountCents
        ∧ 0 ≤ ((withdraw uid amountCents s).2.users uid).balance) := by
  refine ⟨?_, ?_, ?_, ?_, ?_⟩
  · intro hlt
    unfold addFundsCheck
    rw [if_pos (Or.inr hlt)]
  · intro hgt
    have hne : ¬ (amountDollars = 0 ∨ amountDollars < 5) := by
      rintro (rfl | hlt) <;> linarith
    unfold addFundsCheck
    rw [if_neg hne, if_pos hgt]
  · intro hlt
    unfold withdraw
    rw [if_pos hlt]
  · intro hlt
    unfold withdraw
    split_ifs with h1
    · exact ⟨rfl, by simp⟩
    · exact ⟨rfl, by simp⟩
  · intro hok
    unfold withdraw at hok ⊢
    split_ifs at hok ⊢ with h1 h2 h3
    refine ⟨by simp, ?_⟩
    simp
    omega

/-- Store for the C10 witness: user 1 with a 2000-cent balance and a verified
payout account. -/
def c10St : St :=
  updUser 1 (fun u => { u with balance := 2000, connectVerified := true }) initSt

/-- C10 witness: $2 is rejected as below the deposit minimum, $600 as above
the maximum; withdrawing 500 cents is rejected as below the withdrawal
minimum; withdrawing 1500 cents from the 2000-cent balance succeeds, debits
exactly 1500 and leaves the balance nonnegative. -/
theorem claim_C10_witness :
    addFundsCheck 2 = .belowMinimum
    ∧ addFundsCheck 600 = .aboveMaximum
    ∧ withdraw 1 500 c10St = (.belowMinimum, c10St)
    ∧ (((withdraw 1 1500 c10St).2.users 1).balance = (c10St.users 1).balance - 1500
        ∧ 0 ≤ ((withdraw 1 1500 c10St).2.users 1).balance) := by
  refine ⟨(claim_C10 2 c10St 1 500).1 (by norm_num),
          (claim_C10 600 c10St 1 1500).2.1 (by norm_num),
          (claim_C10 2 c10St 1 500).2.2.1 (by norm_num),
          (claim_C10 600 c10St 1 1500).2.2.2.2 ?_⟩
  decide
